import Mathlib

/-!
Shallow embedding of src/plotter.py, a single linear script that loads a CSV
of quantum measurement counts, draws an annotated bar/line chart, exports it,
and prints a statistical summary with per-state empirical probabilities.

Machine numerics are modelled exactly: int64 values as Int, float64 results
as rationals together with explicit nan, inf and neginf markers for the
special values numpy produces on division by zero.
-/

namespace Plotter

/-- Embedding of numpy float64 scalar results: finite values are kept exact as
rationals, while nan, inf and neginf model the special values that integer
division by zero produces under numpy. -/
inductive PyFloat where
  | val (q : ℚ)
  | nan
  | inf
  | neginf
deriving DecidableEq

/-- Division of two int64 scalars as numpy true division performs it in
row Count / total_measurements (src/plotter.py line 118): a zero divisor does
not raise but yields nan (for 0/0), inf or neginf. -/
def pyDiv (a b : Int) : PyFloat :=
  if b = 0 then
    if a = 0 then PyFloat.nan else if 0 < a then PyFloat.inf else PyFloat.neginf
  else PyFloat.val ((a : ℚ) / (b : ℚ))

/-- Addition on embedded float values, with IEEE propagation of the special
values; used to state what the emitted probabilities sum to. -/
def pyAdd : PyFloat → PyFloat → PyFloat
  | PyFloat.nan, _ => PyFloat.nan
  | _, PyFloat.nan => PyFloat.nan
  | PyFloat.inf, PyFloat.neginf => PyFloat.nan
  | PyFloat.neginf, PyFloat.inf => PyFloat.nan
  | PyFloat.inf, _ => PyFloat.inf
  | _, PyFloat.inf => PyFloat.inf
  | PyFloat.neginf, _ => PyFloat.neginf
  | _, PyFloat.neginf => PyFloat.neginf
  | PyFloat.val a, PyFloat.val b => PyFloat.val (a + b)

/-- Sum of a list of embedded float values. -/
def pySum (l : List PyFloat) : PyFloat := l.foldr pyAdd (PyFloat.val 0)

/-- total_measurements = df Count .sum() (src/plotter.py line 115). -/
def totalOf (cs : List Int) : Int := cs.sum

/-- Per-record empirical probability values in row order:
probability = row Count / total_measurements (src/plotter.py lines 117–119). -/
def probValues (cs : List Int) : List PyFloat :=
  cs.map (fun c => pyDiv c (totalOf cs))

/-- The printed probability lines pair each row label with its probability
value (src/plotter.py line 119); one line is printed per row. -/
def probLines (ls : List String) (cs : List Int) : List (String × PyFloat) :=
  ls.zip (probValues cs)

/-- First-occurrence argmax with its value, as pandas Series.idxmax resolves
ties (src/plotter.py line 109): the earliest index attaining the maximum
wins. Returns none on an empty series. -/
def argmax : List Int → Option (Nat × Int)
  | [] => none
  | c :: rest =>
    match argmax rest with
    | none => some (0, c)
    | some (j, m) => if m ≤ c then some (0, c) else some (j + 1, m)

/-- First-occurrence argmin with its value, as pandas Series.idxmin resolves
ties (src/plotter.py line 110). -/
def argmin : List Int → Option (Nat × Int)
  | [] => none
  | c :: rest =>
    match argmin rest with
    | none => some (0, c)
    | some (j, m) => if c ≤ m then some (0, c) else some (j + 1, m)

/-- df Count .idxmax() (src/plotter.py line 109). -/
def idxmax (cs : List Int) : Option Nat := (argmax cs).map Prod.fst

/-- df Count .idxmin() (src/plotter.py line 110). -/
def idxmin (cs : List Int) : Option Nat := (argmin cs).map Prod.fst

/-- df.loc at (idxmax, Measurement): the mode label (src/plotter.py
line 109). -/
def modeOf (ls : List String) (cs : List Int) : Option String :=
  (idxmax cs).map (fun j => ls.getD j "")

/-- df.loc at (idxmin, Measurement): the antimode label (src/plotter.py
line 110). -/
def antimodeOf (ls : List String) (cs : List Int) : Option String :=
  (idxmin cs).map (fun j => ls.getD j "")

/-- df Count .mean() (src/plotter.py line 111): sum divided by length, kept
exact over the rationals. -/
def meanOf (cs : List Int) : ℚ := ((cs.sum : Int) : ℚ) / (cs.length : ℚ)

/-- Square of df Count .std() (src/plotter.py line 112): pandas uses
ddof = 1, dividing the sum of squared deviations from the mean by (n - 1);
when n ≤ 1 that division degenerates to 0/0 and the result is nan. The
printed standard deviation is the square root of this value, so it is nan or
zero exactly when this value is. -/
def sampleVar (cs : List Int) : PyFloat :=
  if cs.length ≤ 1 then PyFloat.nan
  else
    PyFloat.val
      ((cs.map (fun (c : Int) => ((c : ℚ) - meanOf cs) ^ 2)).sum / ((cs.length : ℚ) - 1))

/-- Values printed by the statistical summary block (src/plotter.py
lines 108–112). -/
structure Summary where
  modeLabel : String
  modeCount : Int
  antimodeLabel : String
  antimodeCount : Int
  mean : ℚ
  variance : PyFloat
deriving DecidableEq

/-- Failure modes of the script, identified by the exception the interpreter
raises: the explicit ValueError of the column check at line 45, the
ValueError that pandas Series.idxmax raises on an empty series at line 109,
and the TypeError that the annotation loop at line 84 raises when the count
column loaded as text (string plus int). -/
inductive Err where
  | valueError (msg : String)
  | emptyArgmax
  | annotateTypeError
deriving DecidableEq

/-- Statistical summary block (src/plotter.py lines 108–112). It fails on an
empty series because Series.idxmax raises ValueError there, before the mean
or standard deviation are reached. -/
def statSummary (ls : List String) (cs : List Int) : Except Err Summary :=
  match argmax cs, argmin cs with
  | some (j, bigM), some (k, littleM) =>
    Except.ok ⟨ls.getD j "", bigM, ls.getD k "", littleM, meanOf cs, sampleVar cs⟩
  | _, _ => Except.error Err.emptyArgmax

/-- Value of a decimal digit list. -/
def digitsVal (cs : List Char) : Nat :=
  cs.foldl (fun a c => a * 10 + (c.toNat - 48)) 0

/-- Integer token recognition of the CSV reader: an optional minus sign
followed by a nonempty digit string. Cells not of this form stay text. -/
def parseIntCell (s : String) : Option Int :=
  match s.toList with
  | [] => none
  | '-' :: rest =>
    if rest ≠ [] ∧ rest.all Char.isDigit then some (-(digitsVal rest : Int))
    else none
  | l =>
    if l.all Char.isDigit then some ((digitsVal l : Nat) : Int) else none

/-- Column after dtype inference by pd.read_csv (src/plotter.py line 41):
a column whose cells are all integer tokens becomes an int64 column;
anything else stays an object column of strings. -/
inductive Col where
  | ints (cs : List Int)
  | strs (ss : List String)
deriving DecidableEq

/-- Dtype inference for one raw column. -/
def inferColumn (raw : List String) : Col :=
  match raw.mapM parseIntCell with
  | some cs => Col.ints cs
  | none => Col.strs raw

/-- Raw CSV text: a header row and data rows of cells. -/
structure Csv where
  header : List String
  rows : List (List String)

/-- Index of a named column in the header. -/
def colIdx (csv : Csv) (name : String) : Nat :=
  csv.header.findIdx (fun h => h = name)

/-- Cells of a named column, in row order. -/
def rawColumn (csv : Csv) (name : String) : List String :=
  csv.rows.map (fun r => r.getD (colIdx csv name) "")

/-- In-memory frame produced by pd.read_csv (src/plotter.py line 41), keeping
the two columns the script uses. -/
structure Frame where
  labelCol : Col
  countCol : Col
deriving DecidableEq

/-- Message of the ValueError raised at src/plotter.py line 45. -/
def schemaMsg : String := "CSV must contain 'Measurement' and 'Count' columns"

/-- Loader (src/plotter.py lines 41–45): pd.read_csv followed by the column
presence check. No validation of cell values happens here. -/
def load (csv : Csv) : Except Err Frame :=
  if "Measurement" ∈ csv.header ∧ "Count" ∈ csv.header then
    Except.ok
      ⟨inferColumn (rawColumn csv "Measurement"),
       inferColumn (rawColumn csv "Count")⟩
  else Except.error (Err.valueError schemaMsg)

/-- String displayed for each cell of a column: str of the stored value. -/
def displayLabels : Col → List String
  | Col.ints cs => cs.map (fun c => toString c)
  | Col.strs ss => ss

/-- True when the first list is an initial segment of the second. -/
def leadsList : List Char → List Char → Bool
  | [], _ => true
  | _ :: _, [] => false
  | a :: as, b :: bs => a = b && leadsList as bs

/-- True when the first list occurs as a contiguous segment of the second. -/
def containsList (pat : List Char) : List Char → Bool
  | [] => leadsList pat []
  | c :: t => leadsList pat (c :: t) || containsList pat t

/-- Substring occurrence test on the character lists of the two strings. -/
def mentions (s pat : String) : Bool := containsList pat.toList s.toList

/-- One bar annotation: ax1.text(i, v + 1, str(v), ha = center)
(src/plotter.py line 84). -/
structure Ann where
  x : Nat
  y : Int
  text : String
  ha : String
deriving DecidableEq

/-- Annotation loop (src/plotter.py lines 83–84): one text element per row,
at the bar x position, one count unit above the bar top, showing the exact
count value. -/
def annotationsOf (cs : List Int) : List Ann :=
  cs.enum.map (fun p => ⟨p.1, p.2 + 1, toString p.2, "center"⟩)

/-- Everything a successful run produces: the two load prints, the chart
contents (bars at positions range n with the counts as heights, the overlaid
line through the same points, tick labels, per-bar annotations), the saved
raster file, the statistical summary and the probability lines. -/
structure RunOutput where
  nLoaded : Nat
  totalMeasurements : Int
  barXs : List Nat
  barHeights : List Int
  lineXs : List Nat
  lineYs : List Int
  xtickLabels : List String
  annotations : List Ann
  savedFile : String
  summary : Summary
  probLines : List (String × PyFloat)
deriving DecidableEq

/-- The whole script applied to one CSV input (src/plotter.py top to bottom),
producing either the exception that aborts it or the outputs of a complete
run. The chart, export and display precede the statistical summary in the
source, so a run that fails in the summary stage surfaces that error. -/
def run (csv : Csv) : Except Err RunOutput :=
  match load csv with
  | Except.error e => Except.error e
  | Except.ok f =>
    match f.countCol with
    | Col.strs _ => Except.error Err.annotateTypeError
    | Col.ints cs =>
      let ls := displayLabels f.labelCol
      match statSummary ls cs with
      | Except.error e => Except.error e
      | Except.ok s =>
        Except.ok
          { nLoaded := cs.length
            totalMeasurements := totalOf cs
            barXs := List.range cs.length
            barHeights := cs
            lineXs := List.range cs.length
            lineYs := cs
            xtickLabels := ls
            annotations := annotationsOf cs
            savedFile := "quantum_measurements.png"
            summary := s
            probLines := probLines ls cs }

/-- Observable events of a run, for ordering statements. -/
inductive Event where
  | printLoaded (n : Nat)
  | printTotal (t : Int)
  | drawBar (x : Nat) (h : Int)
  | drawLine
  | setXtick (s : String)
  | annotate (a : Ann)
  | savefig (path : String)
  | showPlot
  | printSummary (s : Summary)
  | printProb (l : String) (p : PyFloat)
deriving DecidableEq

/-- Ordered side effects of a successful run, in source order: the two load
prints (lines 47–48), the chart construction (lines 56–84), savefig
(line 99), plt.show (line 105), the statistics prints (lines 108–112) and
the probability lines (lines 116–119). -/
def trace (o : RunOutput) : List Event :=
  Event.printLoaded o.nLoaded :: Event.printTotal o.totalMeasurements ::
    ((o.barXs.zip o.barHeights).map (fun p => Event.drawBar p.1 p.2)
      ++ Event.drawLine :: o.xtickLabels.map Event.setXtick
      ++ o.annotations.map Event.annotate
      ++ Event.savefig o.savedFile :: Event.showPlot ::
          Event.printSummary o.summary ::
        o.probLines.map (fun p => Event.printProb p.1 p.2))

/-- Recognizer for the savefig event. -/
def isSavefig : Event → Bool
  | Event.savefig _ => true
  | _ => false

/-- Recognizer for the interactive display event. -/
def isShowPlot : Event → Bool
  | Event.showPlot => true
  | _ => false

/-- True exactly when a savefig event occurs strictly before the first
display event in the list (and a display event does occur). -/
def savefigBeforeShow : List Event → Bool
  | [] => false
  | e :: rest =>
    if isSavefig e then rest.any isShowPlot
    else if isShowPlot e then false
    else savefigBeforeShow rest

/-! Helper lemmas. -/

theorem pySum_map_val (l : List ℚ) :
    pySum (l.map PyFloat.val) = PyFloat.val l.sum := by
  induction l with
  | nil => rfl
  | cons a l ih =>
    show pyAdd (PyFloat.val a) (pySum (l.map PyFloat.val)) = _
    rw [ih, List.sum_cons]
    rfl

theorem cast_list_sum (cs : List Int) :
    ((cs.sum : Int) : ℚ) = (cs.map (fun (c : Int) => (c : ℚ))).sum := by
  induction cs with
  | nil => simp
  | cons a l ih => simp [ih]

theorem sum_map_div (cs : List Int) (t : ℚ) :
    (cs.map (fun (c : Int) => (c : ℚ) / t)).sum = (cs.map (fun (c : Int) => (c : ℚ))).sum / t := by
  induction cs with
  | nil => simp
  | cons a l ih =>
    rw [List.map_cons, List.map_cons, List.sum_cons, List.sum_cons, ih, add_div]

theorem argmax_cons_some (c : Int) (rest : List Int) :
    ∃ p, argmax (c :: rest) = some p := by
  rw [argmax]
  cases h : argmax rest with
  | none => exact ⟨(0, c), rfl⟩
  | some p =>
    obtain ⟨j, m⟩ := p
    by_cases hm : m ≤ c
    · exact ⟨(0, c), by simp [hm]⟩
    · exact ⟨(j + 1, m), by simp [hm]⟩

theorem argmin_cons_some (c : Int) (rest : List Int) :
    ∃ p, argmin (c :: rest) = some p := by
  rw [argmin]
  cases h : argmin rest with
  | none => exact ⟨(0, c), rfl⟩
  | some p =>
    obtain ⟨j, m⟩ := p
    by_cases hm : c ≤ m
    · exact ⟨(0, c), by simp [hm]⟩
    · exact ⟨(j + 1, m), by simp [hm]⟩

theorem argmax_spec : ∀ (cs : List Int) (j : Nat) (M : Int),
    argmax cs = some (j, M) →
    cs.get? j = some M ∧ (∀ c ∈ cs, c ≤ M) ∧
      ∀ i, i < j → ∀ c, cs.get? i = some c → c < M := by
  intro cs
  induction cs with
  | nil => intro j M h; simp [argmax] at h
  | cons c rest ih =>
    intro j M h
    rw [argmax] at h
    cases hrest : argmax rest with
    | none =>
      rw [hrest] at h
      simp at h
      obtain ⟨rfl, rfl⟩ := h
      refine ⟨rfl, ?_, ?_⟩
      · intro x hx
        rcases List.mem_cons.mp hx with rfl | hx
        · exact le_refl _
        · cases rest with
          | nil => simp at hx
          | cons d t => obtain ⟨p, hp⟩ := argmax_cons_some d t; rw [hp] at hrest; exact absurd hrest (by simp)
      · intro i hi; omega
    | some p =>
      obtain ⟨j', m⟩ := p
      rw [hrest] at h
      obtain ⟨hget, hle, hfirst⟩ := ih j' m hrest
      by_cases hm : m ≤ c
      · simp [hm] at h
        obtain ⟨rfl, rfl⟩ := h
        refine ⟨rfl, ?_, ?_⟩
        · intro x hx
          rcases List.mem_cons.mp hx with rfl | hx
          · exact le_refl _
          · exact le_trans (hle x hx) hm
        · intro i hi; omega
      · simp [hm] at h
        obtain ⟨rfl, rfl⟩ := h
        push_neg at hm
        refine ⟨hget, ?_, ?_⟩
        · intro x hx
          rcases List.mem_cons.mp hx with rfl | hx
          · exact le_of_lt hm
          · exact hle x hx
        · intro i hi x hx
          cases i with
          | zero => simp at hx; omega
          | succ i' => exact hfirst i' (by omega) x hx

theorem argmin_spec : ∀ (cs : List Int) (k : Nat) (m : Int),
    argmin cs = some (k, m) →
    cs.get? k = some m ∧ (∀ c ∈ cs, m ≤ c) ∧
      ∀ i, i < k → ∀ c, cs.get? i = some c → m < c := by
  intro cs
  induction cs with
  | nil => intro k m h; simp [argmin] at h
  | cons c rest ih =>
    intro k m h
    rw [argmin] at h
    cases hrest : argmin rest with
    | none =>
      rw [hrest] at h
      simp at h
      obtain ⟨rfl, rfl⟩ := h
      refine ⟨rfl, ?_, ?_⟩
      · intro x hx
        rcases List.mem_cons.mp hx with rfl | hx
        · exact le_refl _
        · cases rest with
          | nil => simp at hx
          | cons d t => obtain ⟨p, hp⟩ := argmin_cons_some d t; rw [hp] at hrest; exact absurd hrest (by simp)
      · intro i hi; omega
    | some p =>
      obtain ⟨k', m'⟩ := p
      rw [hrest] at h
      obtain ⟨hget, hle, hfirst⟩ := ih k' m' hrest
      by_cases hm : c ≤ m'
      · simp [hm] at h
        obtain ⟨rfl, rfl⟩ := h
        refine ⟨rfl, ?_, ?_⟩
        · intro x hx
          rcases List.mem_cons.mp hx with rfl | hx
          · exact le_refl _
          · exact le_trans hm (hle x hx)
        · intro i hi; omega
      · simp [hm] at h
        obtain ⟨rfl, rfl⟩ := h
        push_neg at hm
        refine ⟨hget, ?_, ?_⟩
        · intro x hx
          rcases List.mem_cons.mp hx with rfl | hx
          · exact le_of_lt hm
          · exact hle x hx
        · intro i hi x hx
          cases i with
          | zero => simp at hx; omega
          | succ i' => exact hfirst i' (by omega) x hx

theorem mapM_length {α β : Type} (f : α → Option β) :
    ∀ (l : List α) (l' : List β), l.mapM f = some l' → l'.length = l.length := by
  intro l
  induction l with
  | nil =>
    intro l' h
    simp only [List.mapM_nil, pure] at h
    cases h
    rfl
  | cons a t ih =>
    intro l' h
    rw [List.mapM_cons] at h
    cases hfa : f a with
    | none => rw [hfa] at h; simp at h
    | some b =>
      rw [hfa] at h
      cases hmt : t.mapM f with
      | none => rw [hmt] at h; simp at h
      | some bs =>
        rw [hmt] at h
        simp at h
        subst h
        simp [ih bs hmt]

theorem displayLabels_inferColumn_length (raw : List String) :
    (displayLabels (inferColumn raw)).length = raw.length := by
  unfold inferColumn
  cases h : raw.mapM parseIntCell with
  | none => simp [displayLabels]
  | some cs => simp [displayLabels, mapM_length parseIntCell raw cs h]

theorem rawColumn_length (csv : Csv) (name : String) :
    (rawColumn csv name).length = csv.rows.length := by
  simp [rawColumn]

theorem sum_sq_dev (cs : List Int) (a : ℚ) :
    (cs.map (fun (c : Int) => ((c : ℚ) - a) ^ 2)).sum =
      (cs.map (fun (c : Int) => ((c : ℚ)) ^ 2)).sum
        - 2 * a * (cs.map (fun (c : Int) => (c : ℚ))).sum
        + (cs.length : ℚ) * a ^ 2 := by
  induction cs with
  | nil => simp
  | cons c l ih =>
    simp only [List.map_cons, List.sum_cons, ih, List.length_cons]
    push_cast
    ring

theorem run_components (csv : Csv) (cs : List Int)
    (hM : "Measurement" ∈ csv.header) (hC : "Count" ∈ csv.header)
    (hparse : (rawColumn csv "Count").mapM parseIntCell = some cs)
    (hne : cs ≠ []) :
    ∃ o : RunOutput, run csv = Except.ok o ∧
      o.nLoaded = cs.length ∧
      o.totalMeasurements = totalOf cs ∧
      o.barXs = List.range cs.length ∧
      o.barHeights = cs ∧
      o.xtickLabels = displayLabels (inferColumn (rawColumn csv "Measurement")) ∧
      o.xtickLabels.length = cs.length ∧
      o.annotations = annotationsOf cs ∧
      o.savedFile = "quantum_measurements.png" ∧
      o.probLines = probLines (displayLabels (inferColumn (rawColumn csv "Measurement"))) cs ∧
      o.probLines.length = cs.length := by
  have hload : load csv = Except.ok
      ⟨inferColumn (rawColumn csv "Measurement"), inferColumn (rawColumn csv "Count")⟩ := by
    unfold load
    rw [if_pos ⟨hM, hC⟩]
  have hcount : inferColumn (rawColumn csv "Count") = Col.ints cs := by
    unfold inferColumn
    rw [hparse]
  have hlablen : (displayLabels (inferColumn (rawColumn csv "Measurement"))).length
      = cs.length := by
    rw [displayLabels_inferColumn_length, rawColumn_length,
      ← rawColumn_length csv "Count", ← mapM_length parseIntCell _ cs hparse]
  obtain ⟨c, rest, rfl⟩ : ∃ c rest, cs = c :: rest := by
    cases cs with
    | nil => exact absurd rfl hne
    | cons c rest => exact ⟨c, rest, rfl⟩
  obtain ⟨⟨j, bigM⟩, hax⟩ := argmax_cons_some c rest
  obtain ⟨⟨k, littleM⟩, hin⟩ := argmin_cons_some c rest
  have hsum : statSummary (displayLabels (inferColumn (rawColumn csv "Measurement")))
      (c :: rest) = Except.ok
        ⟨(displayLabels (inferColumn (rawColumn csv "Measurement"))).getD j "", bigM,
         (displayLabels (inferColumn (rawColumn csv "Measurement"))).getD k "", littleM,
         meanOf (c :: rest), sampleVar (c :: rest)⟩ := by
    unfold statSummary
    rw [hax, hin]
  have hrun : run csv = Except.ok
      { nLoaded := (c :: rest).length
        totalMeasurements := totalOf (c :: rest)
        barXs := List.range (c :: rest).length
        barHeights := c :: rest
        lineXs := List.range (c :: rest).length
        lineYs := c :: rest
        xtickLabels := displayLabels (inferColumn (rawColumn csv "Measurement"))
        annotations := annotationsOf (c :: rest)
        savedFile := "quantum_measurements.png"
        summary :=
          ⟨(displayLabels (inferColumn (rawColumn csv "Measurement"))).getD j "", bigM,
           (displayLabels (inferColumn (rawColumn csv "Measurement"))).getD k "", littleM,
           meanOf (c :: rest), sampleVar (c :: rest)⟩
        probLines :=
          probLines (displayLabels (inferColumn (rawColumn csv "Measurement"))) (c :: rest) } := by
    unfold run
    rw [hload]
    dsimp only
    rw [hcount]
    dsimp only
    rw [hsum]
  refine ⟨_, hrun, rfl, rfl, rfl, rfl, rfl, hlablen, rfl, rfl, rfl, ?_⟩
  unfold probLines
  rw [List.length_zip]
  simp [probValues, hlablen]

theorem sbs_append (pre l : List Event)
    (h : ∀ e ∈ pre, isSavefig e = false ∧ isShowPlot e = false) :
    savefigBeforeShow (pre ++ l) = savefigBeforeShow l := by
  induction pre with
  | nil => rfl
  | cons e rest ih =>
    have he := h e (List.mem_cons_self e rest)
    rw [List.cons_append, savefigBeforeShow, he.1, he.2]
    simp only [Bool.false_eq_true, if_false]
    exact ih (fun x hx => h x (List.mem_cons_of_mem e hx))

theorem trace_savefig_first (o : RunOutput) :
    savefigBeforeShow (trace o) = true := by
  have h1 : trace o =
      (Event.printLoaded o.nLoaded :: Event.printTotal o.totalMeasurements ::
        ((o.barXs.zip o.barHeights).map (fun p => Event.drawBar p.1 p.2)
          ++ Event.drawLine :: o.xtickLabels.map Event.setXtick
          ++ o.annotations.map Event.annotate))
      ++ Event.savefig o.savedFile :: Event.showPlot ::
          Event.printSummary o.summary ::
        o.probLines.map (fun p => Event.printProb p.1 p.2) := by
    simp [trace, List.append_assoc]
  rw [h1, sbs_append]
  · rw [savefigBeforeShow]
    simp [isSavefig, isShowPlot]
  · refine List.forall_mem_cons.mpr ⟨⟨rfl, rfl⟩, ?_⟩
    refine List.forall_mem_cons.mpr ⟨⟨rfl, rfl⟩, ?_⟩
    refine List.forall_mem_append.mpr ⟨?_, ?_⟩
    · refine List.forall_mem_append.mpr ⟨?_, ?_⟩
      · intro e he
        obtain ⟨p, _, rfl⟩ := List.mem_map.mp he
        exact ⟨rfl, rfl⟩
      · refine List.forall_mem_cons.mpr ⟨⟨rfl, rfl⟩, ?_⟩
        intro e he
        obtain ⟨s, _, rfl⟩ := List.mem_map.mp he
        exact ⟨rfl, rfl⟩
    · intro e he
      obtain ⟨a, _, rfl⟩ := List.mem_map.mp he
      exact ⟨rfl, rfl⟩

/-! Claim theorems. -/

/-- C1: for every loaded table whose total count is positive, the emitted
per-record empirical probability values (count divided by total count) sum to
exactly 1, so in particular to 1.0 within any floating-point tolerance. -/
theorem probs_sum_to_one (cs : List Int) (h : 0 < totalOf cs) :
    pySum (probValues cs) = PyFloat.val 1 := by
  have hne : (totalOf cs : ℚ) ≠ 0 := by
    exact_mod_cast ne_of_gt h
  have hmap : probValues cs
      = (cs.map (fun (c : Int) => (c : ℚ) / (totalOf cs : ℚ))).map PyFloat.val := by
    unfold probValues
    rw [List.map_map]
    refine List.map_congr_left ?_
    intro c _
    simp only [Function.comp]
    unfold pyDiv
    rw [if_neg (by exact_mod_cast hne)]
  rw [hmap, pySum_map_val, sum_map_div, ← cast_list_sum]
  exact congrArg PyFloat.val (div_self hne)

/-- C1 witness: the concrete table with counts 10, 20, 30, 40 has total 100
and its probability values sum to exactly 1. -/
theorem probs_sum_to_one_witness :
    pySum (probValues [10, 20, 30, 40]) = PyFloat.val 1 :=
  probs_sum_to_one [10, 20, 30, 40] (by decide)

/-- C2: idxmax (and idxmin) return the first index in table order attaining
the maximum (minimum) count — the index holds that extremal value, no count
exceeds (is below) it, and every earlier record is strictly smaller (larger) —
so the mode and antimode labels are those of the first extremal records; on
counts 5, 9, 9, 3 with labels 00, 01, 10, 11 the mode is 01, not 10, and the
antimode is 11. -/
theorem mode_antimode_first_occurrence :
    (∀ (cs : List Int) (j : Nat) (M : Int), argmax cs = some (j, M) →
      cs.get? j = some M ∧ (∀ c ∈ cs, c ≤ M) ∧
        ∀ i, i < j → ∀ c, cs.get? i = some c → c < M) ∧
    (∀ (cs : List Int) (k : Nat) (m : Int), argmin cs = some (k, m) →
      cs.get? k = some m ∧ (∀ c ∈ cs, m ≤ c) ∧
        ∀ i, i < k → ∀ c, cs.get? i = some c → m < c) ∧
    (∀ (ls : List String) (cs : List Int) (j : Nat) (M : Int),
      argmax cs = some (j, M) → modeOf ls cs = some (ls.getD j "")) ∧
    (∀ (ls : List String) (cs : List Int) (k : Nat) (m : Int),
      argmin cs = some (k, m) → antimodeOf ls cs = some (ls.getD k "")) ∧
    modeOf ["00", "01", "10", "11"] [5, 9, 9, 3] = some "01" ∧
    antimodeOf ["00", "01", "10", "11"] [5, 9, 9, 3] = some "11" := by
  refine ⟨argmax_spec, argmin_spec, ?_, ?_, by decide, by decide⟩
  · intro ls cs j M h
    simp [modeOf, idxmax, h]
  · intro ls cs k m h
    simp [antimodeOf, idxmin, h]

/-- C2 witness: on counts 5, 9, 9, 3, idxmax picks index 1 and that index
indeed holds the maximum count 9. -/
theorem mode_antimode_first_occurrence_witness :
    ([5, 9, 9, 3] : List Int).get? 1 = some 9 :=
  (mode_antimode_first_occurrence.1 [5, 9, 9, 3] 1 9 (by decide)).1

/-- C3 counterexample: for the single-record table with count 5 the variance
(hence the printed standard deviation, its square root) is nan, not 0, so the
claim that a one-record standard deviation is 0 fails on the code. -/
theorem single_record_std_nan_cex :
    sampleVar [5] = PyFloat.nan ∧
    (statSummary ["0"] [5]).map Summary.variance = Except.ok PyFloat.nan ∧
    PyFloat.nan ≠ PyFloat.val 0 := by
  exact ⟨rfl, rfl, by decide⟩

/-- C3 amended: the standard deviation uses the sample formula — for n ≥ 2
records its square equals (n · Σc² − (Σc)²) / (n · (n − 1)), the closed form
of the sum of squared deviations divided by n − 1 — and for a table with
exactly one record it is nan (undefined), not 0. -/
theorem sample_variance_formula (cs : List Int) :
    (2 ≤ cs.length →
      sampleVar cs = PyFloat.val
        (((cs.length : ℚ) * (cs.map (fun (c : Int) => ((c : ℚ)) ^ 2)).sum
            - ((cs.sum : Int) : ℚ) ^ 2) /
          ((cs.length : ℚ) * ((cs.length : ℚ) - 1)))) ∧
    (cs.length = 1 → sampleVar cs = PyFloat.nan) := by
  constructor
  · intro h2
    have hn0 : ((cs.length : ℚ)) ≠ 0 := by
      have : (0 : ℚ) < (cs.length : ℚ) := by exact_mod_cast (by omega : 0 < cs.length)
      exact ne_of_gt this
    have hn1 : ((cs.length : ℚ)) - 1 ≠ 0 := by
      have : (1 : ℚ) < (cs.length : ℚ) := by exact_mod_cast h2
      exact sub_ne_zero.mpr (ne_of_gt this)
    unfold sampleVar
    rw [if_neg (by omega)]
    congr 1
    rw [sum_sq_dev cs (meanOf cs)]
    unfold meanOf
    rw [cast_list_sum]
    field_simp
    ring
  · intro h1
    unfold sampleVar
    rw [if_pos (by omega)]

/-- C3 amended witness: for counts 10, 20, 30, 40 the variance evaluates via
the sample formula to 500/3 (the population formula would give 125). -/
theorem sample_variance_formula_witness :
    sampleVar [10, 20, 30, 40] = PyFloat.val (500 / 3) := by
  have h := (sample_variance_formula [10, 20, 30, 40]).1 (by decide)
  rw [h]
  congr 1
  simp only [List.map_cons, List.map_nil, List.sum_cons, List.sum_nil,
    List.length_cons, List.length_nil, List.sum_cons]
  norm_num

/-- C4 counterexample: on the table with records 000 and 111 both of count 0,
every printed probability value is nan — exactly the artifact of dividing
zero by the zero total (pyDiv 0 0) — so the lines are emitted with
divide-by-zero artifacts, not reported as undefined. -/
theorem zero_total_nan_cex :
    probLines ["000", "111"] [0, 0] = [("000", PyFloat.nan), ("111", PyFloat.nan)] ∧
    pyDiv 0 0 = PyFloat.nan := by
  exact ⟨by decide, by decide⟩

/-- C4 amended: for every loaded table whose counts are all zero, the
pipeline does not crash: the run completes, the chart renders one
zero-height bar per record, and each per-record probability line is emitted
with the value nan (the numpy 0/0 artifact) rather than being reported as
undefined. -/
theorem zero_total_behavior (csv : Csv) (cs : List Int)
    (hM : "Measurement" ∈ csv.header) (hC : "Count" ∈ csv.header)
    (hparse : (rawColumn csv "Count").mapM parseIntCell = some cs)
    (hne : cs ≠ []) (hzero : ∀ c ∈ cs, c = 0) :
    (run csv).isOk = true ∧
    (run csv).map RunOutput.barHeights = Except.ok (List.replicate cs.length 0) ∧
    (run csv).map (fun o => o.probLines.map Prod.snd) =
      Except.ok (List.replicate cs.length PyFloat.nan) := by
  obtain ⟨o, hrun, hn, ht, hbx, hbh, hxl, hxlen, hann, hsf, hpl, hplen⟩ :=
    run_components csv cs hM hC hparse hne
  have htot : totalOf cs = 0 := List.sum_eq_zero hzero
  have hprob : probValues cs = List.replicate cs.length PyFloat.nan := by
    have hlen : (probValues cs).length = cs.length := by simp [probValues]
    rw [← hlen]
    refine List.eq_replicate_length.mpr ?_
    intro b hb
    obtain ⟨c, hc, rfl⟩ := List.mem_map.mp hb
    rw [htot, hzero c hc]
    rfl
  have hlabs : cs.length
      ≤ (displayLabels (inferColumn (rawColumn csv "Measurement"))).length := by
    rw [← hxl]
    exact le_of_eq hxlen.symm
  refine ⟨by rw [hrun]; rfl, ?_, ?_⟩
  · rw [hrun]
    simp only [Except.map]
    rw [hbh]
    have : cs = List.replicate cs.length 0 := by
      exact List.eq_replicate_length.mpr hzero
    rw [← this]
  · rw [hrun]
    simp only [Except.map]
    rw [hpl]
    unfold probLines
    have hpv : (probValues cs).length = cs.length := by simp [probValues]
    have hlen2 : (probValues cs).length
        ≤ (displayLabels (inferColumn (rawColumn csv "Measurement"))).length := by
      rw [hpv]
      exact hlabs
    rw [List.map_snd_zip _ _ hlen2, hprob]

/-- C4 amended witness: on the concrete table with records 000 and 111 both
of count 0, the run succeeds and emits two probability lines whose values
are both nan. -/
theorem zero_total_behavior_witness :
    (run ⟨["Measurement", "Count"], [["000", "0"], ["111", "0"]]⟩).map
        (fun o => o.probLines.map Prod.snd) =
      Except.ok (List.replicate 2 PyFloat.nan) :=
  (zero_total_behavior ⟨["Measurement", "Count"], [["000", "0"], ["111", "0"]]⟩
    [0, 0] (by decide) (by decide) (by decide) (by decide) (by decide)).2.2

/-- C5: a table with zero records makes the statistics stage fail with the
idxmax-on-empty error — the empty-dataset failure of the error taxonomy —
while every nonempty table makes it succeed, and a run whose CSV has the
required header but no rows ends in exactly that error. -/
theorem empty_table_stats_error :
    (∀ ls : List String, statSummary ls [] = Except.error Err.emptyArgmax) ∧
    (∀ (ls : List String) (cs : List Int), cs ≠ [] →
      (statSummary ls cs).isOk = true) ∧
    (∀ csv : Csv, "Measurement" ∈ csv.header → "Count" ∈ csv.header →
      csv.rows = [] → run csv = Except.error Err.emptyArgmax) := by
  refine ⟨fun ls => rfl, ?_, ?_⟩
  · intro ls cs hne
    obtain ⟨c, rest, rfl⟩ : ∃ c rest, cs = c :: rest := by
      cases cs with
      | nil => exact absurd rfl hne
      | cons c rest => exact ⟨c, rest, rfl⟩
    obtain ⟨⟨j, bigM⟩, hax⟩ := argmax_cons_some c rest
    obtain ⟨⟨k, littleM⟩, hin⟩ := argmin_cons_some c rest
    unfold statSummary
    rw [hax, hin]
    rfl
  · intro csv hM hC hrows
    have hload : load csv = Except.ok
        ⟨inferColumn (rawColumn csv "Measurement"),
         inferColumn (rawColumn csv "Count")⟩ := by
      unfold load
      rw [if_pos ⟨hM, hC⟩]
    have hcol : rawColumn csv "Count" = [] := by simp [rawColumn, hrows]
    unfold run
    rw [hload]
    dsimp only
    rw [hcol]
    rfl

/-- C5 witness: the CSV with the required header and no data rows runs into
exactly the empty-dataset statistics error. -/
theorem empty_table_stats_error_witness :
    run ⟨["Measurement", "Count"], []⟩ = Except.error Err.emptyArgmax :=
  empty_table_stats_error.2.2 ⟨["Measurement", "Count"], []⟩
    (by decide) (by decide) rfl

/-- C6: when either required column is missing from the header, the run
aborts at the loader with the schema ValueError — producing no run output at
all, hence no statistics, chart or report — and the fixed error message
names both the Measurement and the Count column, so in particular whichever
is missing. -/
theorem missing_column_schema_error (csv : Csv)
    (h : "Measurement" ∉ csv.header ∨ "Count" ∉ csv.header) :
    run csv = Except.error (Err.valueError schemaMsg) ∧
    load csv = Except.error (Err.valueError schemaMsg) ∧
    mentions schemaMsg "Measurement" = true ∧
    mentions schemaMsg "Count" = true := by
  have hload : load csv = Except.error (Err.valueError schemaMsg) := by
    unfold load
    rw [if_neg]
    rintro ⟨h1, h2⟩
    rcases h with h | h
    · exact h h1
    · exact h h2
  refine ⟨?_, hload, by decide, by decide⟩
  unfold run
  rw [hload]

/-- C6 witness: a CSV whose header lacks the Count column aborts with the
schema ValueError and yields no output. -/
theorem missing_column_schema_error_witness :
    run ⟨["Measurement"], [["000", "1"]]⟩ = Except.error (Err.valueError schemaMsg) :=
  (missing_column_schema_error ⟨["Measurement"], [["000", "1"]]⟩
    (Or.inr (by decide))).1

/-- C7 counterexample: a file whose count cell is the non-numeric token abc
loads successfully — the count column simply stays an object column of
strings — so the loader does not fail with any parse error at load time. -/
theorem nonnumeric_count_loads_cex :
    (load ⟨["Measurement", "Count"], [["00", "abc"]]⟩).isOk = true ∧
    inferColumn (rawColumn ⟨["Measurement", "Count"], [["00", "abc"]]⟩ "Count")
      = Col.strs ["abc"] := by
  exact ⟨by decide, by decide⟩

/-- C7 amended: the loader validates only the header. Whenever both required
columns are present it succeeds, whatever the cell contents — non-numeric
count cells are kept as strings and negative integer tokens are parsed as
negative counts — so no failure is raised at load time. -/
theorem loader_no_count_validation (csv : Csv)
    (hM : "Measurement" ∈ csv.header) (hC : "Count" ∈ csv.header) :
    (load csv).isOk = true := by
  unfold load
  rw [if_pos ⟨hM, hC⟩]
  rfl

/-- C7 amended witness: a file with a negative count cell and a non-numeric
count cell still loads successfully. -/
theorem loader_no_count_validation_witness :
    (load ⟨["Measurement", "Count"], [["00", "-4"], ["01", "abc"]]⟩).isOk = true :=
  loader_no_count_validation ⟨["Measurement", "Count"], [["00", "-4"], ["01", "abc"]]⟩
    (by decide) (by decide)

/-- C8: the annotation loop produces exactly one annotation per record — the
x positions are exactly the bar positions 0, 1, ..., N−1 in order, with no
duplicates and no omissions, for every N — and the annotation of record i is
horizontally centered at bar i, one count unit above the bar top, showing the
exact count value as text. -/
theorem annotations_per_record (cs : List Int) :
    (annotationsOf cs).length = cs.length ∧
    (annotationsOf cs).map Ann.x = List.range cs.length ∧
    ∀ i v, cs.get? i = some v →
      (annotationsOf cs).get? i = some ⟨i, v + 1, toString v, "center"⟩ := by
  refine ⟨?_, ?_, ?_⟩
  · simp [annotationsOf]
  · rw [annotationsOf, List.map_map]
    have : (Ann.x ∘ fun p : Nat × Int => Ann.mk p.1 (p.2 + 1) (toString p.2) "center")
        = Prod.fst := rfl
    rw [this, List.enum_map_fst]
  · intro i v hv
    rw [annotationsOf, List.get?_map, List.get?_enum, hv]
    rfl

/-- C8 witness: on the four-record table with counts 5, 9, 9, 3, the third
annotation sits at x = 2, y = 10, and reads 9. -/
theorem annotations_per_record_witness :
    (annotationsOf [5, 9, 9, 3]).get? 2 = some ⟨2, 10, "9", "center"⟩ :=
  (annotations_per_record [5, 9, 9, 3]).2.2 2 9 (by decide)

/-- C9: beyond the header check the pipeline validates nothing about the
data values: any CSV whose count cells are integer tokens — negative values
included — and whose labels are arbitrary, duplicated or non-binary strings
loads and runs to completion, and the chart carries the counts as bar
heights, one annotation per record and one probability line per record,
assigned by position so that duplicate labels keep separate records. -/
theorem no_value_validation (csv : Csv) (cs : List Int)
    (hM : "Measurement" ∈ csv.header) (hC : "Count" ∈ csv.header)
    (hparse : (rawColumn csv "Count").mapM parseIntCell = some cs)
    (hne : cs ≠ []) :
    (load csv).isOk = true ∧
    (run csv).isOk = true ∧
    (run csv).map RunOutput.barHeights = Except.ok cs ∧
    (run csv).map RunOutput.annotations = Except.ok (annotationsOf cs) ∧
    (run csv).map (fun o => o.probLines.length) = Except.ok cs.length := by
  obtain ⟨o, hrun, hn, ht, hbx, hbh, hxl, hxlen, hann, hsf, hpl, hplen⟩ :=
    run_components csv cs hM hC hparse hne
  have hload : (load csv).isOk = true := by
    unfold load
    rw [if_pos ⟨hM, hC⟩]
    rfl
  refine ⟨hload, by rw [hrun]; rfl, ?_, ?_, ?_⟩
  · rw [hrun]
    simp only [Except.map]
    rw [hbh]
  · rw [hrun]
    simp only [Except.map]
    rw [hann]
  · rw [hrun]
    simp only [Except.map]
    rw [hplen]

/-- C9 witness: a CSV with a duplicated label 00, a negative count and a
non-binary label 2x runs to completion with one probability line for each of
its three records. -/
theorem no_value_validation_witness :
    (run ⟨["Measurement", "Count"], [["00", "3"], ["00", "-4"], ["2x", "5"]]⟩).map
      (fun o => o.probLines.length) = Except.ok 3 :=
  (no_value_validation ⟨["Measurement", "Count"], [["00", "3"], ["00", "-4"], ["2x", "5"]]⟩
    [3, -4, 5] (by decide) (by decide) (by decide) (by decide)).2.2.2.2

/-- C10: in every successful run the savefig event occurs strictly before the
interactive display event in the effect trace, so the exported raster file is
written before the viewer is ever attempted. -/
theorem export_precedes_display (csv : Csv) (h : (run csv).isOk = true) :
    (run csv).map (fun o => savefigBeforeShow (trace o)) = Except.ok true := by
  obtain ⟨o, ho⟩ : ∃ o, run csv = Except.ok o := by
    cases hr : run csv with
    | error e => rw [hr] at h; exact Bool.noConfusion h
    | ok o => exact ⟨o, rfl⟩
  rw [ho]
  simp only [Except.map]
  rw [trace_savefig_first]

/-- C10 witness: the one-record run saves the raster file before showing the
plot. -/
theorem export_precedes_display_witness :
    (run ⟨["Measurement", "Count"], [["x1", "7"]]⟩).map
      (fun o => savefigBeforeShow (trace o)) = Except.ok true :=
  export_precedes_display ⟨["Measurement", "Count"], [["x1", "7"]]⟩ (by decide)

end Plotter
